import Mathlib

/-!
# Oil Tonnage Calculator — verification development

A shallow embedding of the core logic of `server.js`:

* `roundToNearest` — grid rounding via JavaScript `Math.round`
  (`Math.round(value / step) * step`), where `Math.round x = ⌊x + 1/2⌋`
  (ties toward +∞) in exact arithmetic;
* `getVCFFromDatabase` — the VCF resolver: exact lookup at the rounded
  grid point, else the SQL two-stage nearest lookup
  (`ORDER BY ABS(density - $1) LIMIT 1`, then
  `ORDER BY ABS(temperature - $2) LIMIT 1` among rows at that density);
* `calculate` — the `POST /api/calculate` handler core: resolve, compute
  `volume * density * vcf / 1000000`, insert the record;
* `listCalculations` — the `GET /api/calculations` handler core:
  `LIKE '%search%'` filtering over five textual columns, allow-listed
  sort column, normalized sort order, offset/limit paging;
* `deleteById` — the `DELETE /api/calculations/:id` handler core.

The reference store (`vcftable`) and record store (`oil_tonnages`) are
modelled as lists; numeric columns as rationals; SQL `ORDER BY ... LIMIT 1`
as `List.argmin` (first minimizer, i.e. iteration-order tie-break); SQL
`ORDER BY` sorting as a stable sort; `LIKE` as a pattern matcher in which
`%` matches any string and `_` any single character.
-/

namespace OilTonnage

/-- JavaScript `Math.round` in exact arithmetic: round half toward +∞,
i.e. `⌊x + 1/2⌋`. -/
def jsRound (x : ℚ) : ℤ := ⌊x + 1 / 2⌋

/-- Function `roundToNearest(value, step)` from `server.js`:
`Math.round(value / step) * step`. -/
def roundToNearest (value step : ℚ) : ℚ := (jsRound (value / step) : ℚ) * step

/-- Modelled from the spec: "standard round-half-away-from-zero on the scaled
value" — the rounding rule the spec claims the resolver uses.  Ties go away
from zero, so negative halfway values round down. -/
def roundHalfAwayToNearest (value step : ℚ) : ℚ :=
  (if value / step < 0 then -⌊-(value / step) + 1 / 2⌋ else ⌊value / step + 1 / 2⌋ : ℤ) * step

/-- A row of the read-only `vcftable` reference table. -/
structure VCFEntry where
  density : ℚ
  temperature : ℚ
  vcf : ℚ
  deriving DecidableEq, Repr

/-- The value returned by `getVCFFromDatabase`. -/
structure VCFResult where
  vcf : ℚ
  usedDensity : ℚ
  usedTemp : ℚ
  deriving DecidableEq, Repr

/-- Function `getVCFFromDatabase(density, temperature)` from `server.js`.

1. round density to the 0.5 grid and temperature to the 0.25 grid;
2. exact match: `SELECT vcf FROM vcftable WHERE density = $1 AND
   temperature = $2 LIMIT 1`;
3. else closest density: `SELECT density FROM vcftable ORDER BY
   ABS(density - $1) LIMIT 1` (falling back to the rounded density when the
   table is empty, per `rows[0]?.density || roundedDensity`);
4. closest temperature among rows at that density: `SELECT vcf, temperature
   FROM vcftable WHERE density = $1 ORDER BY ABS(temperature - $2) LIMIT 1`;
5. if that query is empty, `throw new Error('VCF data not found ...')`,
   modelled as `none`. -/
def getVCFFromDatabase (store : List VCFEntry) (density temperature : ℚ) : Option VCFResult :=
  let roundedDensity := roundToNearest density (1 / 2)
  let roundedTemp := roundToNearest temperature (1 / 4)
  match store.find? (fun e => decide (e.density = roundedDensity) &&
      decide (e.temperature = roundedTemp)) with
  | some e => some ⟨e.vcf, roundedDensity, roundedTemp⟩
  | none =>
    let closestDensity :=
      match store.argmin (fun e => |e.density - roundedDensity|) with
      | some e => e.density
      | none => roundedDensity
    match (store.filter (fun e => decide (e.density = closestDensity))).argmin
        (fun e => |e.temperature - roundedTemp|) with
    | some e => some ⟨e.vcf, e.density, e.temperature⟩
    | none => none

/-- A `TIMESTAMP` column value, broken into calendar fields. -/
structure Timestamp where
  year : ℕ
  month : ℕ
  day : ℕ
  hour : ℕ
  minute : ℕ
  second : ℕ
  deriving DecidableEq, Repr

/-- Chronological key of a timestamp (mixed radix), used to model
`ORDER BY created_at`. -/
def Timestamp.key (t : Timestamp) : ℕ :=
  ((((t.year * 13 + t.month) * 32 + t.day) * 24 + t.hour) * 60 + t.minute) * 60 + t.second

/-- Left-pad a numeral with zeros to width 2. -/
def pad2 (n : ℕ) : String := if n < 10 then "0" ++ toString n else toString n

/-- Rendering `to_char(created_at, 'YYYY-MM-DD HH24:MI:SS')` from the search query. -/
def Timestamp.format (t : Timestamp) : String :=
  toString t.year ++ "-" ++ pad2 t.month ++ "-" ++ pad2 t.day ++ " " ++
    pad2 t.hour ++ ":" ++ pad2 t.minute ++ ":" ++ pad2 t.second

/-- A row of the `oil_tonnages` table. -/
structure CalculationRecord where
  id : ℕ
  volume : ℚ
  density : ℚ
  temperature : ℚ
  vcf : ℚ
  usedDensity : ℚ
  usedTemperature : ℚ
  tonnage : ℚ
  createdAt : Timestamp
  deriving DecidableEq, Repr

/-- The tonnage formula of `POST /api/calculate`:
`(volume * density * vcfData.vcf) / 1000000`. -/
def computeTonnage (volume density vcf : ℚ) : ℚ := volume * density * vcf / 1000000

/-- A validated `POST /api/calculate` request body. -/
structure CalcRequest where
  volume : ℚ
  density : ℚ
  temperature : ℚ
  deriving DecidableEq, Repr

/-- The `POST /api/calculate` handler core: resolve the VCF, compute the
tonnage from the raw request values, and insert the record.  On resolver
failure the error propagates before the `INSERT`, so the record store is
returned unchanged and no record is produced. -/
def calculate (store : List VCFEntry) (db : List CalculationRecord) (newId : ℕ)
    (now : Timestamp) (req : CalcRequest) :
    Option CalculationRecord × List CalculationRecord :=
  match getVCFFromDatabase store req.density req.temperature with
  | none => (none, db)
  | some v =>
    let r : CalculationRecord :=
      ⟨newId, req.volume, req.density, req.temperature, v.vcf, v.usedDensity, v.usedTemp,
        computeTonnage req.volume req.density v.vcf, now⟩
    (some r, db ++ [r])

/-- PostgreSQL `DECIMAL` storage rounding: round half away from zero to an
integer number of scale units. -/
def pgRound (q : ℚ) : ℤ := if q < 0 then -⌊-q + 1 / 2⌋ else ⌊q + 1 / 2⌋

/-- Left-pad a string with zeros to the given width. -/
def padZeros (s : String) (w : ℕ) : String :=
  String.mk (List.replicate (w - s.length) '0') ++ s

/-- The `::text` rendering of a `DECIMAL(_, scale)` column: the stored value
with exactly `scale` fraction digits. -/
def renderFixed (q : ℚ) (scale : ℕ) : String :=
  let n := pgRound (q * (10 : ℚ) ^ scale)
  let sign := if n < 0 then "-" else ""
  let m := n.natAbs
  if scale = 0 then sign ++ toString m
  else sign ++ toString (m / 10 ^ scale) ++ "." ++ padZeros (toString (m % 10 ^ scale)) scale

/-- SQL `LIKE` matching: `%` matches any sequence of characters (any suffix
split), `_` matches exactly one character, every other pattern character
matches itself; the empty pattern matches only the empty string. -/
def likeMatch : List Char → List Char → Bool
  | [], t => t.isEmpty
  | p :: ps, t =>
    if p = '%' then t.tails.any (fun t2 => likeMatch ps t2)
    else
      match t with
      | [] => false
      | c :: t2 => (decide (p = '_') || p == c) && likeMatch ps t2

/-- The `LIKE` pattern built by the handler: `` `%${search}%` ``. -/
def searchPattern (search : String) : List Char := '%' :: (search.toList ++ ['%'])

/-- The five textual columns the search `WHERE` clause matches against:
`volume::text`, `density::text`, `temperature::text`, `tonnage::text`
(scales 2, 2, 2, 8 per the `oil_tonnages` schema), and
`to_char(created_at, 'YYYY-MM-DD HH24:MI:SS')`. -/
def fieldTexts (r : CalculationRecord) : List String :=
  [renderFixed r.volume 2, renderFixed r.density 2, renderFixed r.temperature 2,
    renderFixed r.tonnage 8, r.createdAt.format]

/-- The search filter of `GET /api/calculations`: no `WHERE` clause when
`search` is empty (`if (search)`), otherwise an `OR` of `LIKE '%search%'`
over the five textual columns. -/
def searchWhere (search : String) (r : CalculationRecord) : Bool :=
  if search = "" then true
  else (fieldTexts r).any (fun t => likeMatch (searchPattern search) t.toList)

/-- The spec's matching predicate, for comparison with `searchWhere`: the
search string occurs as a case-sensitive substring of the textual rendering
of volume, density, temperature, tonnage, or the formatted timestamp. -/
def substringMatch (search : String) (r : CalculationRecord) : Bool :=
  (fieldTexts r).any (fun t => t.toList.tails.any (fun suf => search.toList.isPrefixOf suf))

/-- Allow-list `validSortColumns` from `server.js`. -/
def validSortColumns : List String :=
  ["created_at", "volume", "density", "temperature", "tonnage"]

/-- Line `const sortColumn = validSortColumns.includes(sort) ? sort : 'created_at'`. -/
def sortColumnOf (sort : String) : String :=
  if validSortColumns.contains sort then sort else "created_at"

/-- JavaScript `String.prototype.toUpperCase` on ASCII input: uppercase every
character. -/
def jsToUpperCase (s : String) : String := String.mk (s.toList.map Char.toUpper)

/-- Line `const sortOrder = order.toUpperCase() === 'ASC' ? 'ASC' : 'DESC'`. -/
def sortOrderOf (order : String) : String :=
  if jsToUpperCase order = "ASC" then "ASC" else "DESC"

/-- The sort key of a record under a (validated) sort column name. -/
def colKey (col : String) (r : CalculationRecord) : ℚ :=
  if col = "volume" then r.volume
  else if col = "density" then r.density
  else if col = "temperature" then r.temperature
  else if col = "tonnage" then r.tonnage
  else (r.createdAt.key : ℚ)

/-- The row ordering of `ORDER BY ${sortColumn} ${sortOrder}`. -/
def orderRel (col ord : String) (a b : CalculationRecord) : Prop :=
  if ord = "ASC" then colKey col a ≤ colKey col b else colKey col b ≤ colKey col a

instance (col ord : String) : DecidableRel (orderRel col ord) := fun a b =>
  show Decidable
      (if ord = "ASC" then colKey col a ≤ colKey col b else colKey col b ≤ colKey col a) from
    inferInstance

instance (col ord : String) : IsTotal CalculationRecord (orderRel col ord) := by
  constructor; intro a b; unfold orderRel; split <;> exact le_total _ _

instance (col ord : String) : IsTrans CalculationRecord (orderRel col ord) := by
  constructor; intro a b c; unfold orderRel; split
  · exact fun h1 h2 => le_trans h1 h2
  · exact fun h1 h2 => le_trans h2 h1

/-- The `GET /api/calculations` handler core: filter by the search clause,
sort by the validated column and normalized order, and page with
`LIMIT limit OFFSET (page-1)*limit`. -/
def listCalculations (db : List CalculationRecord) (page limit : ℕ)
    (search sort order : String) : List CalculationRecord :=
  let filtered := db.filter (searchWhere search)
  let sorted := filtered.insertionSort (orderRel (sortColumnOf sort) (sortOrderOf order))
  (sorted.drop ((page - 1) * limit)).take limit

/-- The `DELETE /api/calculations/:id` handler core:
`DELETE FROM oil_tonnages WHERE id = $1 RETURNING *` removes the matching
rows; the handler answers 404 exactly when no row was returned.  Returns the
remaining store and whether a record existed. -/
def deleteById (db : List CalculationRecord) (id : ℕ) :
    List CalculationRecord × Bool :=
  (db.filter (fun r => decide (r.id ≠ id)), db.any (fun r => decide (r.id = id)))

/-! ## Theorems -/

section Claims

attribute [local semireducible] Rat.mul Rat.inv Rat.add Rat.sub

/-- Claim C2 (counterexample). The claim says the resolver rounds with
round-half-away-from-zero on the scaled value, so a temperature exactly
halfway between two grid points rounds away from zero even when negative.
The code uses JavaScript `Math.round`, which rounds halves toward +∞: at
temperature `-1/8` (halfway between `0` and `-1/4`) the code rounds to `0`
while round-half-away-from-zero gives `-1/4`, and the resolver accordingly
hits the grid entry at temperature `0`, not the one at `-1/4`. -/
theorem roundToNearest_not_half_away_from_zero :
    roundToNearest (-1/8) (1/4) = 0 ∧
    roundHalfAwayToNearest (-1/8) (1/4) = -1/4 ∧
    ((0 : ℚ) ≠ -1/4) ∧
    getVCFFromDatabase [⟨850, 0, 1⟩, ⟨850, -1/4, 2⟩] 850 (-1/8) = some ⟨1, 850, 0⟩ :=
  ⟨by decide, by decide, by decide, by decide⟩

/-- Claim C2 (amended): `roundToNearest` snaps the scaled value to the grid
using round-half-up (ties toward +∞, as JavaScript `Math.round` does), not
round-half-away-from-zero.  For every positive step the result is a grid
multiple of the step, it is a nearest grid multiple, and an input exactly
halfway between two grid points rounds to the larger one. -/
theorem roundToNearest_grid (v s : ℚ) (hs : 0 < s) :
    (∃ k : ℤ, roundToNearest v s = (k : ℚ) * s) ∧
    (∀ k : ℤ, |v - roundToNearest v s| ≤ |v - (k : ℚ) * s|) ∧
    (∀ k : ℤ, v = ((k : ℚ) + 1/2) * s → roundToNearest v s = ((k : ℚ) + 1) * s) := by
  have hs0 : s ≠ 0 := ne_of_gt hs
  have hrtn : roundToNearest v s = ((round (v / s) : ℤ) : ℚ) * s := by
    rw [roundToNearest, jsRound, ← round_eq]
  refine ⟨⟨round (v / s), hrtn⟩, ?_, ?_⟩
  · intro k
    have h1 : v - roundToNearest v s = (v / s - round (v / s)) * s := by
      rw [hrtn, sub_mul, div_mul_cancel₀ _ hs0]
    have h2 : v - (k : ℚ) * s = (v / s - k) * s := by
      rw [sub_mul, div_mul_cancel₀ _ hs0]
    rw [h1, h2, abs_mul, abs_mul]
    exact mul_le_mul_of_nonneg_right (round_le (v / s) k) (abs_nonneg s)
  · intro k hk
    have hdiv : v / s = (k : ℚ) + 1/2 := by
      rw [hk, mul_div_assoc, div_self hs0, mul_one]
    have hfloor : ((k : ℚ) + 1/2) + 1/2 = ((k + 1 : ℤ) : ℚ) := by push_cast; ring
    rw [hrtn, round_eq, hdiv, hfloor, Int.floor_intCast]
    push_cast
    ring

/-- Witness for `roundToNearest_grid`: at `v = -1/8`, `s = 1/4` (a halfway
input, with `k = -1`), the rounded value is the larger grid point `0`. -/
theorem roundToNearest_grid_witness :
    roundToNearest (-1/8) (1/4) = (((-1 : ℤ) : ℚ) + 1) * (1/4) :=
  (roundToNearest_grid (-1/8) (1/4) (by norm_num)).2.2 (-1) (by norm_num)

/-- Lemma: `find?` returns the element when it is the unique element satisfying the
predicate. -/
theorem find?_eq_some_of_unique {α : Type} {p : α → Bool} {l : List α} {a : α}
    (ha : a ∈ l) (hpa : p a = true) (huniq : ∀ b ∈ l, p b = true → b = a) :
    l.find? p = some a := by
  induction l with
  | nil => cases ha
  | cons x xs ih =>
    by_cases hx : p x = true
    · have hxa : x = a := huniq x (List.mem_cons_self x xs) hx
      subst hxa
      simp [List.find?_cons_of_pos, hx]
    · rw [List.find?_cons_of_neg _ (by simpa using hx)]
      refine ih ?_ fun b hb hpb => huniq b (List.mem_cons_of_mem _ hb) hpb
      rcases List.mem_cons.mp ha with h | h
      · subst h; exact absurd hpa hx
      · exact h

/-- A non-empty list has an `argmin`. -/
theorem exists_argmin_of_ne_nil {α β : Type} [LinearOrder β] (f : α → β) {l : List α}
    (h : l ≠ []) : ∃ a, l.argmin f = some a := by
  cases harg : l.argmin f with
  | none => exact absurd (List.argmin_eq_none.mp harg) h
  | some a => exact ⟨a, rfl⟩

/-- Unfolding lemma for the fallback branch of `getVCFFromDatabase`: when the
exact lookup fails, the resolver returns the entry chosen by the
closest-density then closest-temperature queries. -/
theorem getVCF_fallback_eq (store : List VCFEntry) (density temperature : ℚ)
    {e0 e1 : VCFEntry}
    (hfind : store.find? (fun e => decide (e.density = roundToNearest density (1 / 2)) &&
      decide (e.temperature = roundToNearest temperature (1 / 4))) = none)
    (he0 : store.argmin (fun e => |e.density - roundToNearest density (1 / 2)|) = some e0)
    (he1 : (store.filter (fun e => decide (e.density = e0.density))).argmin
      (fun e => |e.temperature - roundToNearest temperature (1 / 4)|) = some e1) :
    getVCFFromDatabase store density temperature = some ⟨e1.vcf, e1.density, e1.temperature⟩ := by
  simp only [getVCFFromDatabase, hfind, he0, he1]

/-- Claim C3: when the store holds a (unique) entry at exactly the rounded
grid point, the resolver returns that entry's vcf with the rounded inputs as
the used density and temperature. -/
theorem getVCF_exact_match (store : List VCFEntry) (density temperature : ℚ) (e : VCFEntry)
    (he : e ∈ store)
    (hd : e.density = roundToNearest density (1 / 2))
    (ht : e.temperature = roundToNearest temperature (1 / 4))
    (huniq : ∀ e2 ∈ store, e2.density = roundToNearest density (1 / 2) →
      e2.temperature = roundToNearest temperature (1 / 4) → e2 = e) :
    getVCFFromDatabase store density temperature =
      some ⟨e.vcf, roundToNearest density (1 / 2), roundToNearest temperature (1 / 4)⟩ := by
  have hfind : store.find? (fun e2 => decide (e2.density = roundToNearest density (1 / 2)) &&
      decide (e2.temperature = roundToNearest temperature (1 / 4))) = some e := by
    refine find?_eq_some_of_unique he (by simp [hd, ht]) fun b hb hpb => ?_
    simp only [Bool.and_eq_true, decide_eq_true_eq] at hpb
    exact huniq b hb hpb.1 hpb.2
  simp only [getVCFFromDatabase, hfind]

/-- Witness for `getVCF_exact_match` at a two-entry store with an exact grid
hit. -/
theorem getVCF_exact_match_witness :
    getVCFFromDatabase [⟨850, 15, 49/50⟩, ⟨851, 20, 97/100⟩] 850 15 = some ⟨49/50, 850, 15⟩ := by
  rw [getVCF_exact_match [⟨850, 15, 49/50⟩, ⟨851, 20, 97/100⟩] 850 15 ⟨850, 15, 49/50⟩
    (by decide) (by decide) (by decide) (by decide)]
  decide

/-- Claim C1: on a rounded grid point with no exact entry and a non-empty
store, the resolver picks an entry whose density minimizes the absolute
difference to the rounded density over the whole store, and whose
temperature minimizes the absolute difference to the rounded temperature
among the entries sharing the picked entry's density, returning that entry's
vcf with its stored density and temperature — the two-stage nearest-neighbor
policy, not a true 2D nearest neighbor. -/
theorem getVCF_fallback_two_stage (store : List VCFEntry) (density temperature : ℚ)
    (hne : store ≠ [])
    (hnoexact : ∀ e ∈ store, ¬(e.density = roundToNearest density (1 / 2) ∧
      e.temperature = roundToNearest temperature (1 / 4))) :
    ∃ e ∈ store,
      getVCFFromDatabase store density temperature = some ⟨e.vcf, e.density, e.temperature⟩ ∧
      (∀ e2 ∈ store,
        |e.density - roundToNearest density (1 / 2)| ≤
          |e2.density - roundToNearest density (1 / 2)|) ∧
      (∀ e2 ∈ store, e2.density = e.density →
        |e.temperature - roundToNearest temperature (1 / 4)| ≤
          |e2.temperature - roundToNearest temperature (1 / 4)|) := by
  have hfind : store.find? (fun e => decide (e.density = roundToNearest density (1 / 2)) &&
      decide (e.temperature = roundToNearest temperature (1 / 4))) = none := by
    rw [List.find?_eq_none]
    intro e he
    simpa using hnoexact e he
  obtain ⟨e0, he0⟩ := exists_argmin_of_ne_nil (fun e : VCFEntry =>
    |e.density - roundToNearest density (1 / 2)|) hne
  have he0mem : e0 ∈ store := List.argmin_mem (Option.mem_def.mpr he0)
  have hfilter : e0 ∈ store.filter (fun e => decide (e.density = e0.density)) :=
    List.mem_filter.mpr ⟨he0mem, by simp⟩
  obtain ⟨e1, he1⟩ := exists_argmin_of_ne_nil (fun e : VCFEntry =>
    |e.temperature - roundToNearest temperature (1 / 4)|)
    (List.ne_nil_of_mem hfilter)
  have he1f : e1 ∈ store.filter (fun e => decide (e.density = e0.density)) :=
    List.argmin_mem (Option.mem_def.mpr he1)
  have he1mem : e1 ∈ store := (List.mem_filter.mp he1f).1
  have he1d : e1.density = e0.density := by simpa using (List.mem_filter.mp he1f).2
  refine ⟨e1, he1mem, getVCF_fallback_eq store density temperature hfind he0 he1, ?_, ?_⟩
  · intro e2 he2
    have := List.le_of_mem_argmin he2 (Option.mem_def.mpr he0)
    simpa [he1d] using this
  · intro e2 he2 hd2
    have he2f : e2 ∈ store.filter (fun e => decide (e.density = e0.density)) :=
      List.mem_filter.mpr ⟨he2, by simp [hd2, he1d]⟩
    exact List.le_of_mem_argmin
      (f := fun e : VCFEntry => |e.temperature - roundToNearest temperature (1 / 4)|)
      he2f (Option.mem_def.mpr he1)

/-- Witness for `getVCF_fallback_two_stage`: density 851, temperature 16
misses both entries; the closest density is 851 and the only entry there has
temperature 20. -/
theorem getVCF_fallback_two_stage_witness :
    ∃ e ∈ [(⟨850, 15, 49/50⟩ : VCFEntry), ⟨851, 20, 97/100⟩],
      getVCFFromDatabase [⟨850, 15, 49/50⟩, ⟨851, 20, 97/100⟩] 851 16 =
        some ⟨e.vcf, e.density, e.temperature⟩ ∧
      (∀ e2 ∈ [(⟨850, 15, 49/50⟩ : VCFEntry), ⟨851, 20, 97/100⟩],
        |e.density - roundToNearest 851 (1 / 2)| ≤ |e2.density - roundToNearest 851 (1 / 2)|) ∧
      (∀ e2 ∈ [(⟨850, 15, 49/50⟩ : VCFEntry), ⟨851, 20, 97/100⟩], e2.density = e.density →
        |e.temperature - roundToNearest 16 (1 / 4)| ≤
          |e2.temperature - roundToNearest 16 (1 / 4)|) :=
  getVCF_fallback_two_stage [⟨850, 15, 49/50⟩, ⟨851, 20, 97/100⟩] 851 16
    (by decide) (by decide)

/-- Claim C10: whenever the reference store is non-empty the resolver
returns a result for every input; the not-found branch is reachable only on
an empty store. -/
theorem getVCF_total_of_nonempty (store : List VCFEntry) (density temperature : ℚ)
    (hne : store ≠ []) :
    (getVCFFromDatabase store density temperature).isSome = true := by
  cases hfind : store.find? (fun e => decide (e.density = roundToNearest density (1 / 2)) &&
      decide (e.temperature = roundToNearest temperature (1 / 4))) with
  | some e =>
    simp only [getVCFFromDatabase, hfind, Option.isSome_some]
  | none =>
    obtain ⟨e0, he0⟩ := exists_argmin_of_ne_nil (fun e : VCFEntry =>
      |e.density - roundToNearest density (1 / 2)|) hne
    have he0mem : e0 ∈ store := List.argmin_mem (Option.mem_def.mpr he0)
    have hfilter : e0 ∈ store.filter (fun e => decide (e.density = e0.density)) :=
      List.mem_filter.mpr ⟨he0mem, by simp⟩
    obtain ⟨e1, he1⟩ := exists_argmin_of_ne_nil (fun e : VCFEntry =>
      |e.temperature - roundToNearest temperature (1 / 4)|)
      (List.ne_nil_of_mem hfilter)
    rw [getVCF_fallback_eq store density temperature hfind he0 he1]
    rfl

/-- Witness for `getVCF_total_of_nonempty` at a one-entry store and an
arbitrary off-grid input. -/
theorem getVCF_total_of_nonempty_witness :
    (getVCFFromDatabase [⟨850, 15, 49/50⟩] 999 42).isSome = true :=
  getVCF_total_of_nonempty [⟨850, 15, 49/50⟩] 999 42 (by decide)

/-- Claim C4: every successful calculate operation stores and returns a
record whose tonnage is `volume * density * vcf / 1000000` computed from the
raw request volume and density (not the grid-rounded used values), appended
once at creation; in particular the tonnage of volume 1000, density 850,
vcf 1 is 0.85. -/
theorem calculate_tonnage_formula (store : List VCFEntry) (db : List CalculationRecord)
    (newId : ℕ) (now : Timestamp) (req : CalcRequest) (r : CalculationRecord)
    (db2 : List CalculationRecord)
    (h : calculate store db newId now req = (some r, db2)) :
    r.tonnage = req.volume * req.density * r.vcf / 1000000 ∧
    r.volume = req.volume ∧ r.density = req.density ∧
    db2 = db ++ [r] ∧
    computeTonnage 1000 850 1 = 85/100 := by
  unfold calculate at h
  cases hv : getVCFFromDatabase store req.density req.temperature with
  | none =>
    rw [hv] at h
    simp at h
  | some v =>
    rw [hv] at h
    simp only [Prod.mk.injEq, Option.some.injEq] at h
    obtain ⟨hr, hdb⟩ := h
    subst hr
    refine ⟨by simp [computeTonnage], rfl, rfl, hdb.symm, by decide⟩

/-- Witness for `calculate_tonnage_formula` at a concrete request: the
inserted record carries tonnage 0.85 = 1000 * 850 * 1 / 1000000. -/
theorem calculate_tonnage_formula_witness :
    calculate [⟨850, 15, 1⟩] [] 7 ⟨2025, 1, 1, 0, 0, 0⟩ ⟨1000, 850, 15⟩ =
      (some ⟨7, 1000, 850, 15, 1, 850, 15, 17/20, ⟨2025, 1, 1, 0, 0, 0⟩⟩,
        [⟨7, 1000, 850, 15, 1, 850, 15, 17/20, ⟨2025, 1, 1, 0, 0, 0⟩⟩]) ∧
    (17/20 : ℚ) = 1000 * 850 * 1 / 1000000 := by
  refine ⟨by decide, ?_⟩
  have h := calculate_tonnage_formula [⟨850, 15, 1⟩] [] 7 ⟨2025, 1, 1, 0, 0, 0⟩ ⟨1000, 850, 15⟩
    ⟨7, 1000, 850, 15, 1, 850, 15, 17/20, ⟨2025, 1, 1, 0, 0, 0⟩⟩
    [⟨7, 1000, 850, 15, 1, 850, 15, 17/20, ⟨2025, 1, 1, 0, 0, 0⟩⟩] (by decide)
  simpa using h.1

/-- Claim C5: when no VCF entry is resolvable for the request, the resolver
failure propagates before any insert: the calculate operation produces no
record and leaves the record store unchanged. -/
theorem calculate_fails_without_vcf (store : List VCFEntry) (db : List CalculationRecord)
    (newId : ℕ) (now : Timestamp) (req : CalcRequest)
    (h : getVCFFromDatabase store req.density req.temperature = none) :
    calculate store db newId now req = (none, db) := by
  unfold calculate
  rw [h]

/-- Witness for `calculate_fails_without_vcf`: an empty reference store
resolves nothing and the one-record store is untouched. -/
theorem calculate_fails_without_vcf_witness :
    calculate [] [⟨1, 100, 850, 20, 1, 850, 20, 1, ⟨2024, 1, 1, 0, 0, 0⟩⟩] 2
      ⟨2025, 1, 1, 0, 0, 0⟩ ⟨1000, 850, 15⟩ =
      (none, [⟨1, 100, 850, 20, 1, 850, 20, 1, ⟨2024, 1, 1, 0, 0, 0⟩⟩]) :=
  calculate_fails_without_vcf [] _ 2 _ _ (by decide)

/-- Claim C7: the effective sort column is the requested one exactly when it
is in the allow-list and `created_at` otherwise (silently), so it always
lies in the allow-list; the effective sort order is `ASC` exactly when the
request upper-cases to `ASC` and `DESC` for every other value, so no raw
client string outside these fixed sets reaches the query. -/
theorem sort_params_allowlisted (sort ord : String) :
    (sort ∈ validSortColumns → sortColumnOf sort = sort) ∧
    (sort ∉ validSortColumns → sortColumnOf sort = "created_at") ∧
    sortColumnOf sort ∈ validSortColumns ∧
    (jsToUpperCase ord = "ASC" ↔ sortOrderOf ord = "ASC") ∧
    (jsToUpperCase ord ≠ "ASC" → sortOrderOf ord = "DESC") ∧
    (sortOrderOf ord = "ASC" ∨ sortOrderOf ord = "DESC") := by
  have hcm : validSortColumns.contains sort = true ↔ sort ∈ validSortColumns := by
    simp
  have hasc : jsToUpperCase ord = "ASC" ↔ sortOrderOf ord = "ASC" := by
    unfold sortOrderOf
    constructor
    · intro hup
      rw [if_pos hup]
    · intro hres
      by_contra hup
      rw [if_neg hup] at hres
      exact absurd hres (by decide)
  refine ⟨fun hm => ?_, fun hm => ?_, ?_, hasc, fun hup => ?_, ?_⟩
  · unfold sortColumnOf
    rw [if_pos (hcm.mpr hm)]
  · unfold sortColumnOf
    rw [if_neg fun hcontains => hm (hcm.mp hcontains)]
  · unfold sortColumnOf
    split
    · next hcontains => exact hcm.mp hcontains
    · next => decide
  · unfold sortOrderOf
    rw [if_neg hup]
  · unfold sortOrderOf
    split
    · exact Or.inl rfl
    · exact Or.inr rfl

/-- Witness for `sort_params_allowlisted`: a listed column passes through, an
unknown column falls back to `created_at`, order normalizes
case-insensitively, unknown orders become `DESC`. -/
theorem sort_params_allowlisted_witness :
    sortColumnOf "volume" = "volume" ∧ sortColumnOf "bogus" = "created_at" ∧
    sortOrderOf "aSc" = "ASC" ∧ sortOrderOf "descending" = "DESC" :=
  ⟨(sort_params_allowlisted "volume" "x").1 (by decide),
    (sort_params_allowlisted "bogus" "x").2.1 (by decide),
    (sort_params_allowlisted "x" "aSc").2.2.2.1.mp (by decide),
    (sort_params_allowlisted "x" "descending").2.2.2.2.1 (by decide)⟩

/-- Lemma: `filter (id ≠)` equals `erase` when record ids are unique. -/
theorem filter_ne_eq_erase (db : List CalculationRecord) (r : CalculationRecord)
    (hnodup : (db.map CalculationRecord.id).Nodup) (hr : r ∈ db) :
    db.filter (fun x => decide (x.id ≠ r.id)) = db.erase r := by
  induction db with
  | nil => cases hr
  | cons x xs ih =>
    rw [List.map_cons, List.nodup_cons] at hnodup
    obtain ⟨hx, hxs⟩ := hnodup
    rcases List.mem_cons.mp hr with h | h
    · subst h
      rw [List.erase_cons_head, List.filter_cons_of_neg (by simp)]
      apply List.filter_eq_self.mpr
      intro a ha
      simp only [ne_eq, decide_eq_true_eq]
      exact fun hEq => hx (hEq ▸ List.mem_map_of_mem _ ha)
    · have hxid : x.id ≠ r.id := fun hEq =>
        hx (by rw [hEq]; exact List.mem_map_of_mem _ h)
      rw [List.filter_cons_of_pos (by simpa using hxid),
        List.erase_cons_tail (by simpa using fun hEq : x = r => hxid (by rw [hEq]))]
      rw [ih hxs h]

/-- Claim C9: `deleteById` removes the record with the given id and reports
whether one existed: with unique ids, if no record has the id the store is
unchanged and the result is a not-found failure; if a record has it, exactly
that record is removed and the operation succeeds, the other records
untouched. -/
theorem deleteById_spec (db : List CalculationRecord) (id : ℕ)
    (hnodup : (db.map CalculationRecord.id).Nodup) :
    ((∀ r ∈ db, r.id ≠ id) → deleteById db id = (db, false)) ∧
    (∀ r ∈ db, r.id = id → deleteById db id = (db.erase r, true)) := by
  constructor
  · intro habs
    unfold deleteById
    refine Prod.ext ?_ ?_
    · show db.filter _ = db
      apply List.filter_eq_self.mpr
      intro a ha
      simpa using habs a ha
    · show db.any _ = false
      rw [List.any_eq_false]
      intro a ha
      simpa using habs a ha
  · intro r hr hid
    subst hid
    unfold deleteById
    refine Prod.ext ?_ ?_
    · show db.filter _ = db.erase r
      exact filter_ne_eq_erase db r hnodup hr
    · show db.any _ = true
      rw [List.any_eq_true]
      exact ⟨r, hr, by simp⟩

/-- Witness for `deleteById_spec`: deleting id 1 from a two-record store
removes exactly the record with id 1. -/
theorem deleteById_spec_witness :
    deleteById [⟨1, 100, 850, 20, 1, 850, 20, 1, ⟨2024, 1, 1, 0, 0, 0⟩⟩,
        ⟨2, 200, 850, 20, 1, 850, 20, 1, ⟨2025, 1, 1, 0, 0, 0⟩⟩] 1 =
      ([⟨2, 200, 850, 20, 1, 850, 20, 1, ⟨2025, 1, 1, 0, 0, 0⟩⟩], true) := by
  rw [(deleteById_spec [⟨1, 100, 850, 20, 1, 850, 20, 1, ⟨2024, 1, 1, 0, 0, 0⟩⟩,
      ⟨2, 200, 850, 20, 1, 850, 20, 1, ⟨2025, 1, 1, 0, 0, 0⟩⟩] 1 (by decide)).2
    ⟨1, 100, 850, 20, 1, 850, 20, 1, ⟨2024, 1, 1, 0, 0, 0⟩⟩ (by decide) rfl]
  decide

/-- An allow-listed sort column passes through unchanged. -/
theorem sortColumnOf_mem {sort : String} (h : sort ∈ validSortColumns) :
    sortColumnOf sort = sort := by
  unfold sortColumnOf
  rw [if_pos (by simpa using h)]

/-- A sort column outside the allow-list falls back to `created_at`. -/
theorem sortColumnOf_not_mem {sort : String} (h : sort ∉ validSortColumns) :
    sortColumnOf sort = "created_at" := by
  unfold sortColumnOf
  rw [if_neg (by simpa using h)]

/-- Every `listCalculations` result page is sorted by the validated column
in the normalized order. -/
theorem listCalculations_sorted (db : List CalculationRecord) (page limit : ℕ)
    (search sort order : String) :
    (listCalculations db page limit search sort order).Sorted
      (orderRel (sortColumnOf sort) (sortOrderOf order)) := by
  have h : listCalculations db page limit search sort order =
      ((List.insertionSort (orderRel (sortColumnOf sort) (sortOrderOf order))
        (db.filter (searchWhere search))).drop ((page - 1) * limit)).take limit := rfl
  rw [h]
  exact List.Pairwise.sublist ((List.take_sublist _ _).trans (List.drop_sublist _ _))
    (List.sorted_insertionSort _ _)

/-- Claim C8 (counterexample). The claim says that a request naming an
invalid sort column returns rows ordered by createdAt descending regardless
of the order parameter.  With sort `bogus` and order `asc` the code falls
back to the createdAt column but still honors the ascending order: the
returned first row has a strictly earlier createdAt key than the second. -/
theorem invalid_sort_asc_cex :
    listCalculations [⟨1, 100, 850, 20, 1, 850, 20, 1, ⟨2024, 1, 1, 0, 0, 0⟩⟩,
        ⟨2, 200, 850, 20, 1, 850, 20, 1, ⟨2025, 1, 1, 0, 0, 0⟩⟩] 1 50 "" "bogus" "asc" =
      [⟨1, 100, 850, 20, 1, 850, 20, 1, ⟨2024, 1, 1, 0, 0, 0⟩⟩,
        ⟨2, 200, 850, 20, 1, 850, 20, 1, ⟨2025, 1, 1, 0, 0, 0⟩⟩] ∧
    Timestamp.key ⟨2024, 1, 1, 0, 0, 0⟩ < Timestamp.key ⟨2025, 1, 1, 0, 0, 0⟩ :=
  ⟨by decide, by decide⟩

/-- Claim C8 (amended): sort `volume` with order `asc` returns rows
non-decreasing in volume; a request naming an invalid sort column returns
rows ordered by createdAt in the direction of the order parameter —
ascending when it upper-cases to `ASC`, descending otherwise. -/
theorem list_sort_amended (db : List CalculationRecord) (page limit : ℕ)
    (search sort order : String) :
    (listCalculations db page limit search "volume" "asc").Sorted
      (fun a b => a.volume ≤ b.volume) ∧
    (sort ∉ validSortColumns →
      (listCalculations db page limit search sort order).Sorted (fun a b =>
        if sortOrderOf order = "ASC" then a.createdAt.key ≤ b.createdAt.key
        else b.createdAt.key ≤ a.createdAt.key)) := by
  constructor
  · have h := listCalculations_sorted db page limit search "volume" "asc"
    rw [show sortColumnOf "volume" = "volume" from by decide,
      show sortOrderOf "asc" = "ASC" from by decide] at h
    refine h.imp fun {a b} hab => ?_
    simpa [orderRel, colKey] using hab
  · intro hm
    have h := listCalculations_sorted db page limit search sort order
    rw [sortColumnOf_not_mem hm] at h
    refine h.imp fun {a b} hab => ?_
    unfold orderRel colKey at hab
    by_cases hord : sortOrderOf order = "ASC"
    · rw [if_pos hord] at hab ⊢
      simp at hab
      exact_mod_cast hab
    · rw [if_neg hord] at hab ⊢
      simp at hab
      exact_mod_cast hab

/-- Witness for `list_sort_amended`: invalid column `bogus` with order `asc`
yields rows ascending in createdAt key. -/
theorem list_sort_amended_witness :
    (listCalculations [⟨1, 100, 850, 20, 1, 850, 20, 1, ⟨2024, 1, 1, 0, 0, 0⟩⟩,
        ⟨2, 200, 850, 20, 1, 850, 20, 1, ⟨2025, 1, 1, 0, 0, 0⟩⟩] 1 50 "" "bogus" "asc").Sorted
      (fun a b =>
        if sortOrderOf "asc" = "ASC" then a.createdAt.key ≤ b.createdAt.key
        else b.createdAt.key ≤ a.createdAt.key) :=
  (list_sort_amended [⟨1, 100, 850, 20, 1, 850, 20, 1, ⟨2024, 1, 1, 0, 0, 0⟩⟩,
      ⟨2, 200, 850, 20, 1, 850, 20, 1, ⟨2025, 1, 1, 0, 0, 0⟩⟩] 1 50 "" "bogus" "asc").2
    (by decide)

/-- A pattern starting with `%` matches a string iff the rest of the pattern
matches some suffix. -/
theorem likeMatch_pct (ps t : List Char) :
    likeMatch ('%' :: ps) t = t.tails.any (fun t2 => likeMatch ps t2) := by
  simp [likeMatch]

/-- A wildcard-free pattern followed by a single `%` matches exactly the
strings it is a prefix of. -/
theorem likeMatch_literal_pct {s : List Char} (hs : ∀ c ∈ s, c ≠ '%' ∧ c ≠ '_')
    (t : List Char) :
    likeMatch (s ++ ['%']) t = true ↔ s <+: t := by
  induction s generalizing t with
  | nil =>
    rw [List.nil_append, likeMatch_pct, List.any_eq_true]
    constructor
    · intro
      exact List.nil_prefix
    · intro
      exact ⟨[], (List.mem_tails _ _).mpr List.nil_suffix, rfl⟩
  | cons c s ih =>
    obtain ⟨hc1, hc2⟩ := hs c (List.mem_cons_self c s)
    have hs2 : ∀ x ∈ s, x ≠ '%' ∧ x ≠ '_' := fun x hx => hs x (List.mem_cons_of_mem _ hx)
    cases t with
    | nil =>
      rw [List.cons_append, likeMatch, if_neg hc1]
      simp [List.prefix_nil]
    | cons d t2 =>
      rw [List.cons_append, likeMatch, if_neg hc1]
      simp only [decide_eq_false hc2, Bool.false_or, Bool.and_eq_true, beq_iff_eq,
        List.cons_prefix_cons]
      rw [ih hs2]

/-- The handler's `LIKE '%search%'` pattern matches a text iff a suffix of
the text has the (wildcard-free) search string as a prefix — that is, iff
the search string is an infix of the text. -/
theorem likeMatch_searchPattern (s : String) (hs : ∀ c ∈ s.toList, c ≠ '%' ∧ c ≠ '_')
    (t : List Char) :
    likeMatch (searchPattern s) t = true ↔ s.toList <:+: t := by
  rw [searchPattern, likeMatch_pct, List.any_eq_true]
  constructor
  · rintro ⟨t2, ht2, hm⟩
    rw [List.mem_tails] at ht2
    rw [likeMatch_literal_pct hs] at hm
    exact List.infix_iff_prefix_suffix.mpr ⟨t2, hm, ht2⟩
  · intro hinf
    obtain ⟨t2, hpre, hsuf⟩ := List.infix_iff_prefix_suffix.mp hinf
    exact ⟨t2, (List.mem_tails _ _).mpr hsuf, (likeMatch_literal_pct hs t2).mpr hpre⟩

/-- The spec's substring predicate holds iff the search string is an infix
of one of the five field texts. -/
theorem substringMatch_iff (s : String) (r : CalculationRecord) :
    substringMatch s r = true ↔ ∃ t ∈ fieldTexts r, s.toList <:+: t.toList := by
  unfold substringMatch
  rw [List.any_eq_true]
  refine exists_congr fun t => and_congr_right fun _ => ?_
  rw [List.any_eq_true]
  constructor
  · rintro ⟨suf, hsuf, hpre⟩
    rw [List.mem_tails] at hsuf
    rw [List.isPrefixOf_iff_prefix] at hpre
    exact List.infix_iff_prefix_suffix.mpr ⟨suf, hpre, hsuf⟩
  · intro hinf
    obtain ⟨suf, hpre, hsuf⟩ := List.infix_iff_prefix_suffix.mp hinf
    exact ⟨suf, (List.mem_tails _ _).mpr hsuf, List.isPrefixOf_iff_prefix.mpr hpre⟩

/-- For a non-empty search string without `LIKE` wildcard characters the
handler's filter agrees with the spec's substring predicate. -/
theorem searchWhere_iff_substring (s : String) (hs0 : s ≠ "")
    (hs : ∀ c ∈ s.toList, c ≠ '%' ∧ c ≠ '_') (r : CalculationRecord) :
    searchWhere s r = true ↔ substringMatch s r = true := by
  unfold searchWhere
  rw [if_neg hs0, List.any_eq_true, substringMatch_iff]
  refine exists_congr fun t => and_congr_right fun _ => ?_
  exact likeMatch_searchPattern s hs t.toList

/-- Claim C6 (counterexample). The claim says every search string is matched
as a literal substring, including strings containing `%` or `_`.  In the
code the search string is spliced into a `LIKE '%...%'` pattern, so `_`
matches any single character: searching `2_00` returns the record whose
volume renders as `2500.00`, although `2_00` is not a substring of any of
its five rendered fields. -/
theorem search_wildcard_cex :
    listCalculations [⟨1, 2500, 890, 30, 1, 890, 30, 89/40, ⟨2025, 8, 5, 17, 8, 20⟩⟩] 1 50
        "2_00" "created_at" "DESC" =
      [⟨1, 2500, 890, 30, 1, 890, 30, 89/40, ⟨2025, 8, 5, 17, 8, 20⟩⟩] ∧
    substringMatch "2_00" ⟨1, 2500, 890, 30, 1, 890, 30, 89/40, ⟨2025, 8, 5, 17, 8, 20⟩⟩ =
      false :=
  ⟨by decide, by decide⟩

/-- Claim C6 (amended): for every non-empty search string made of characters
other than the `LIKE` wildcards `%` and `_`, list (with paging wide enough
to return everything) returns exactly the records whose volume, density,
temperature, tonnage, or formatted created-at rendering has the search
string as a case-sensitive substring — an OR across those five fields and no
others.  A search string containing `%` or `_` is instead interpreted with
`LIKE` wildcard semantics. -/
theorem list_search_substring (db : List CalculationRecord) (r : CalculationRecord)
    (s sort order : String) (hs0 : s ≠ "")
    (hs : ∀ c ∈ s.toList, c ≠ '%' ∧ c ≠ '_') :
    r ∈ listCalculations db 1 db.length s sort order ↔
      r ∈ db ∧ substringMatch s r = true := by
  have h : listCalculations db 1 db.length s sort order =
      ((List.insertionSort (orderRel (sortColumnOf sort) (sortOrderOf order))
        (db.filter (searchWhere s))).drop ((1 - 1) * db.length)).take db.length := rfl
  rw [h]
  have hlen : (List.insertionSort (orderRel (sortColumnOf sort) (sortOrderOf order))
      (db.filter (searchWhere s))).length ≤ db.length := by
    rw [(List.perm_insertionSort _ _).length_eq]
    exact List.length_filter_le _ _
  rw [show (1 - 1) * db.length = 0 from by simp, List.drop_zero, List.take_of_length_le hlen,
    (List.perm_insertionSort _ _).mem_iff, List.mem_filter]
  exact and_congr_right fun _ => searchWhere_iff_substring s hs0 hs r

/-- Witness for `list_search_substring`: searching `2500` finds the record
whose volume renders as `2500.00`. -/
theorem list_search_substring_witness :
    (⟨1, 2500, 890, 30, 1, 890, 30, 89/40, ⟨2025, 8, 5, 17, 8, 20⟩⟩ : CalculationRecord) ∈
        listCalculations [⟨1, 2500, 890, 30, 1, 890, 30, 89/40, ⟨2025, 8, 5, 17, 8, 20⟩⟩] 1
          [(⟨1, 2500, 890, 30, 1, 890, 30, 89/40, ⟨2025, 8, 5, 17, 8, 20⟩⟩ :
            CalculationRecord)].length "2500" "created_at" "DESC" ↔
      (⟨1, 2500, 890, 30, 1, 890, 30, 89/40, ⟨2025, 8, 5, 17, 8, 20⟩⟩ : CalculationRecord) ∈
          [(⟨1, 2500, 890, 30, 1, 890, 30, 89/40, ⟨2025, 8, 5, 17, 8, 20⟩⟩ :
            CalculationRecord)] ∧
        substringMatch "2500"
          ⟨1, 2500, 890, 30, 1, 890, 30, 89/40, ⟨2025, 8, 5, 17, 8, 20⟩⟩ = true :=
  list_search_substring [⟨1, 2500, 890, 30, 1, 890, 30, 89/40, ⟨2025, 8, 5, 17, 8, 20⟩⟩]
    ⟨1, 2500, 890, 30, 1, 890, 30, 89/40, ⟨2025, 8, 5, 17, 8, 20⟩⟩ "2500" "created_at" "DESC"
    (by decide) (by decide)

end Claims

end OilTonnage
